import Mathlib

/-!
Verification of the NFPA fire-detection coverage/layout engine
(`fire_design_app.py`).

Real-valued room dimensions and spacings are modelled as rationals (ℚ):
the Python source manipulates them with exact arithmetic formulas
(multiplication, division, `math.ceil`), and every concrete value
appearing in the source catalog is a decimal literal, hence rational.

Python raising is modelled with `Except PyErr`: on rational inputs the
only exception the engine itself can raise is a division by zero.
-/

/-- The only error the Python engine can actually raise on rational
inputs: division by zero (`room_length / spacing` or
`area / coverage_per_detector` with a zero divisor). -/
inductive PyErr where
  | zeroDivisionError
  deriving DecidableEq, Repr

/-- Pure value computed by `calculate_detector_quantity` when the
divisor is non-zero: `math.ceil(area / coverage_per_detector)` with
`area = room_length * room_width` and
`coverage_per_detector = spacing * spacing`. -/
def detector_quantity (room_length room_width spacing : ℚ) : ℤ :=
  ⌈(room_length * room_width) / (spacing * spacing)⌉

/-- Function `calculate_detector_quantity(room_length, room_width,
spacing)` of `fire_design_app.py`: computes
`area = room_length * room_width`,
`coverage_per_detector = spacing * spacing`, and returns
`math.ceil(area / coverage_per_detector)`; a zero
`coverage_per_detector` raises `ZeroDivisionError` in Python. -/
def calculate_detector_quantity (room_length room_width spacing : ℚ) :
    Except PyErr ℤ :=
  if spacing * spacing = 0 then .error .zeroDivisionError
  else .ok (detector_quantity room_length room_width spacing)

/-- The position list built by the nested loop of
`generate_detector_grid`: `x_count = math.ceil(room_length / spacing)`,
`y_count = math.ceil(room_width / spacing)`, then for `i` in
`range(x_count)` (outer) and `j` in `range(y_count)` (inner) the
candidate `((i + 0.5) * spacing, (j + 0.5) * spacing)` is appended
exactly when `x <= room_length and y <= room_width`.  A non-positive
count makes `range` empty, as in Python (`Int.toNat` of a non-positive
integer is `0`). -/
def grid_positions (room_length room_width spacing : ℚ) : List (ℚ × ℚ) :=
  let x_count : ℤ := ⌈room_length / spacing⌉
  let y_count : ℤ := ⌈room_width / spacing⌉
  (List.range x_count.toNat).flatMap fun (i : ℕ) =>
    (List.range y_count.toNat).filterMap fun (j : ℕ) =>
      let x : ℚ := ((i : ℚ) + 1/2) * spacing
      let y : ℚ := ((j : ℚ) + 1/2) * spacing
      if x ≤ room_length ∧ y ≤ room_width then some (x, y) else none

/-- Function `generate_detector_grid(room_length, room_width, spacing)`
of `fire_design_app.py`: with a zero spacing its very first statement
`math.ceil(room_length / spacing)` raises `ZeroDivisionError`;
otherwise the nested loop produces `grid_positions`. -/
def generate_detector_grid (room_length room_width spacing : ℚ) :
    Except PyErr (List (ℚ × ℚ)) :=
  if spacing = 0 then .error .zeroDivisionError
  else .ok (grid_positions room_length room_width spacing)

/-- Spec-side formulation of the grid enumeration (§4.1 of the spec):
all candidate cell centers for column index `i` in
`[0, ceil(room_length/spacing))` (outer) and row index `j` in
`[0, ceil(room_width/spacing))` (inner), before any filtering. -/
def grid_candidates (room_length room_width spacing : ℚ) : List (ℚ × ℚ) :=
  (List.range (Int.toNat ⌈room_length / spacing⌉)).flatMap fun (i : ℕ) =>
    (List.range (Int.toNat ⌈room_width / spacing⌉)).map fun (j : ℕ) =>
      (((i : ℚ) + 1/2) * spacing, ((j : ℚ) + 1/2) * spacing)

/-- Spec-side formulation of `generateGrid` (§4.1 of the spec):
enumerate every candidate center, then discard (not clamp) every
candidate with `x > roomLength` or `y > roomWidth`. -/
def gridOfSpec (room_length room_width spacing : ℚ) : List (ℚ × ℚ) :=
  (grid_candidates room_length room_width spacing).filter fun p =>
    decide (p.1 ≤ room_length ∧ p.2 ≤ room_width)

/-- A catalog item of `equipment_library` in `fire_design_app.py`; the
sizing metrics are optional keys of the Python dict. -/
structure CatalogItem where
  name : String
  nfpa : String
  default_spacing_m : Option ℚ := none
  coverage_m2 : Option ℚ := none
  max_travel_distance_m : Option ℚ := none
  deriving DecidableEq, Repr

/-- The static `equipment_library` of `fire_design_app.py` as
category-name / item-list pairs (9.1 = 91/10, 15.2 = 76/5). -/
def equipment_library : List (String × List CatalogItem) :=
  [("Smoke Detection",
     [{ name := "Point Smoke Detector", nfpa := "NFPA 72",
        default_spacing_m := some (91/10) },
      { name := "Beam Smoke Detector", nfpa := "NFPA 72",
        default_spacing_m := some 18 }]),
   ("Heat Detection",
     [{ name := "Fixed Temperature Heat Detector", nfpa := "NFPA 72",
        default_spacing_m := some (76/5) },
      { name := "Rate-of-Rise Heat Detector", nfpa := "NFPA 72",
        default_spacing_m := some (76/5) }]),
   ("Flame Detection",
     [{ name := "UV Flame Detector", nfpa := "NFPA 72",
        coverage_m2 := some 400 },
      { name := "IR Flame Detector", nfpa := "NFPA 72",
        coverage_m2 := some 600 }]),
   ("Manual Devices",
     [{ name := "Manual Call Point", nfpa := "NFPA 72",
        max_travel_distance_m := some 61 }]),
   ("Notification",
     [{ name := "Sounder", nfpa := "NFPA 72" },
      { name := "Strobe", nfpa := "NFPA 72" }])]

/-- A selection-ledger entry: the dict appended to `selected_items` by
`FireDesignApp.add_item` (keys `name`, `quantity`, `nfpa`, `spacing`). -/
structure Entry where
  name : String
  quantity : ℤ
  nfpa : String
  spacing : Option ℚ
  deriving DecidableEq, Repr

/-- Method `FireDesignApp.add_item` of `fire_design_app.py`: captures
the chosen catalog item by value with `quantity` 1 and
`spacing = item.get(default_spacing_m, None)`. -/
def add_item (item : CatalogItem) : Entry :=
  { name := item.name, quantity := 1, nfpa := item.nfpa,
    spacing := item.default_spacing_m }

/-- Python truthiness of the `spacing` field, as tested by the filter
`if i[spacing]` in `generate_outputs`: `None` and `0.0` are falsy,
every other number (including negative ones) is truthy. -/
def entryTruthy (e : Entry) : Bool :=
  match e.spacing with
  | none => false
  | some s => s != 0

/-- The numeric spacing of an entry (only consumed under `entryTruthy`,
hence on a `some` value, exactly as in the Python loop). -/
def entrySpacing (e : Entry) : ℚ :=
  e.spacing.getD 0

/-- Method `FireDesignApp.generate_outputs` of `fire_design_app.py`,
restricted to its domain core (the CSV/DXF writes and the message box
are external I/O).  Python filters `selected_items` by spacing
truthiness, then for each detector extends the shared `positions` list
with `generate_detector_grid` and overwrites the entry dict's
`quantity` in place with `calculate_detector_quantity`; since the
entries are shared references, the final ledger is the original list
with every truthy entry so updated.  The filter-then-loop of the source
is modelled as the equivalent single pass testing truthiness per
entry. -/
def generate_outputs (length width : ℚ) :
    List Entry → Except PyErr (List Entry × List (ℚ × ℚ))
  | [] => .ok ([], [])
  | det :: rest =>
    if entryTruthy det then
      match generate_detector_grid length width (entrySpacing det),
            calculate_detector_quantity length width (entrySpacing det) with
      | .ok ps, .ok q =>
        match generate_outputs length width rest with
        | .ok (ledger, positions) =>
            .ok ({ det with quantity := q } :: ledger, ps ++ positions)
        | .error err => .error err
      | .error err, _ => .error err
      | .ok _, .error err => .error err
    else
      match generate_outputs length width rest with
      | .ok (ledger, positions) => .ok (det :: ledger, positions)
      | .error err => .error err

/-- The in-place quantity mutation of `generate_outputs`, as a pure map
over the ledger: every truthy entry gets the computed quantity, every
other entry is untouched. -/
def apply_quantities (length width : ℚ) (items : List Entry) : List Entry :=
  items.map fun e =>
    if entryTruthy e then
      { e with quantity := detector_quantity length width (entrySpacing e) }
    else e

/-- The combined position sequence accumulated by `generate_outputs`:
the concatenation of the grids of the truthy entries, in ledger
order. -/
def combined_positions (length width : ℚ) (items : List Entry) :
    List (ℚ × ℚ) :=
  (items.filter fun e => entryTruthy e).flatMap fun e =>
    grid_positions length width (entrySpacing e)

lemma entrySpacing_ne_zero_of_truthy {e : Entry} (h : entryTruthy e = true) :
    entrySpacing e ≠ 0 := by
  unfold entryTruthy at h
  unfold entrySpacing
  cases hs : e.spacing with
  | none => rw [hs] at h; exact absurd h (by simp)
  | some s =>
      rw [hs] at h
      simpa using h

/-- On every ledger (and any rational room dimensions) the loop of
`generate_outputs` completes without raising: the truthiness filter
excludes exactly the zero spacings, the only values on which the two
engine calls can raise. -/
lemma generate_outputs_eq_ok (length width : ℚ) (items : List Entry) :
    generate_outputs length width items =
      .ok (apply_quantities length width items,
           combined_positions length width items) := by
  induction items with
  | nil => rfl
  | cons e rest ih =>
      by_cases h : entryTruthy e = true
      · have hs : entrySpacing e ≠ 0 := entrySpacing_ne_zero_of_truthy h
        simp only [generate_outputs, h, if_true, generate_detector_grid,
          calculate_detector_quantity, mul_ne_zero hs hs, hs, if_neg,
          if_false, ih, apply_quantities, combined_positions, List.map_cons,
          List.filter_cons, List.flatMap_cons]
      · have hb : entryTruthy e = false := by
          cases hh : entryTruthy e
          · rfl
          · exact absurd hh h
        simp only [generate_outputs, hb, Bool.false_eq_true, if_false, ih,
          apply_quantities, combined_positions, List.map_cons,
          List.filter_cons, hb]

lemma filterMap_ite_eq_filter_map {α β : Type} (f : α → β) (p : β → Prop)
    [DecidablePred p] (l : List α) :
    (l.filterMap fun a => if p (f a) then some (f a) else none) =
      (l.map f).filter fun b => decide (p b) := by
  induction l with
  | nil => rfl
  | cons a t ih =>
      by_cases h : p (f a) <;>
        simp [List.filterMap_cons, List.filter_cons, List.map_cons, h, ih]

/-- The loop of the source (append inside the conditional) produces the
same list as the spec-side enumerate-all-candidates-then-filter
formulation. -/
lemma grid_positions_eq_gridOfSpec (room_length room_width spacing : ℚ) :
    grid_positions room_length room_width spacing =
      gridOfSpec room_length room_width spacing := by
  simp only [grid_positions, gridOfSpec, grid_candidates]
  rw [List.filter_flatMap]
  congr 1
  funext i
  exact filterMap_ite_eq_filter_map
    (fun (j : ℕ) => (((i : ℚ) + 1/2) * spacing, ((j : ℚ) + 1/2) * spacing))
    (fun z => z.1 ≤ room_length ∧ z.2 ≤ room_width)
    (List.range (Int.toNat ⌈room_width / spacing⌉))

/-- C1: for every roomLength > 0, roomWidth > 0 and spacing > 0,
`calculate_detector_quantity` returns
`ceil((roomLength*roomWidth)/(spacing*spacing))`, and this result is an
integer at least 1. -/
theorem calculate_detector_quantity_ceil_ge_one
    (room_length room_width spacing : ℚ)
    (hl : 0 < room_length) (hw : 0 < room_width) (hs : 0 < spacing) :
    calculate_detector_quantity room_length room_width spacing =
      .ok ⌈(room_length * room_width) / (spacing * spacing)⌉ ∧
    1 ≤ ⌈(room_length * room_width) / (spacing * spacing)⌉ := by
  have hss : spacing * spacing ≠ 0 := mul_ne_zero hs.ne' hs.ne'
  refine ⟨by simp [calculate_detector_quantity, detector_quantity, hss], ?_⟩
  have hpos : 0 < (room_length * room_width) / (spacing * spacing) :=
    div_pos (mul_pos hl hw) (mul_pos hs hs)
  have := Int.ceil_pos.mpr hpos
  linarith

/-- Witness for C1 at roomLength = roomWidth = 10, spacing = 9.1. -/
theorem calculate_detector_quantity_ceil_ge_one_witness :
    calculate_detector_quantity 10 10 (91/10) =
      .ok ⌈((10:ℚ) * 10) / ((91/10) * (91/10))⌉ ∧
    1 ≤ ⌈((10:ℚ) * 10) / ((91/10) * (91/10))⌉ :=
  calculate_detector_quantity_ceil_ge_one 10 10 (91/10)
    (by norm_num) (by norm_num) (by norm_num)

/-- C4: for positive inputs, `generate_detector_grid` returns exactly
the spec-side enumeration: all candidates
`((i + 0.5)*spacing, (j + 0.5)*spacing)` for columns
`i < ceil(roomLength/spacing)` (outer) and rows
`j < ceil(roomWidth/spacing)` (inner), filtered (not clamped) by
`x ≤ roomLength` and `y ≤ roomWidth`, in that order. -/
theorem generate_detector_grid_enumerates
    (room_length room_width spacing : ℚ)
    (hl : 0 < room_length) (hw : 0 < room_width) (hs : 0 < spacing) :
    generate_detector_grid room_length room_width spacing =
      .ok (gridOfSpec room_length room_width spacing) := by
  simp [generate_detector_grid, hs.ne', grid_positions_eq_gridOfSpec]

/-- Witness for C4 at roomLength = 20, roomWidth = 10, spacing = 5. -/
theorem generate_detector_grid_enumerates_witness :
    generate_detector_grid 20 10 5 = .ok (gridOfSpec 20 10 5) :=
  generate_detector_grid_enumerates 20 10 5
    (by norm_num) (by norm_num) (by norm_num)

/-- C5: for positive inputs, every position returned by
`generate_detector_grid` satisfies `0 ≤ x ≤ roomLength` and
`0 ≤ y ≤ roomWidth`. -/
theorem generate_detector_grid_in_bounds
    (room_length room_width spacing : ℚ)
    (hl : 0 < room_length) (hw : 0 < room_width) (hs : 0 < spacing)
    (ps : List (ℚ × ℚ))
    (hps : generate_detector_grid room_length room_width spacing = .ok ps) :
    ∀ p ∈ ps, 0 ≤ p.1 ∧ p.1 ≤ room_length ∧ 0 ≤ p.2 ∧ p.2 ≤ room_width := by
  have hps2 : ps = grid_positions room_length room_width spacing := by
    simp [generate_detector_grid, hs.ne'] at hps
    exact hps.symm
  subst hps2
  intro p hp
  simp only [grid_positions, List.mem_flatMap, List.mem_filterMap,
    List.mem_range] at hp
  obtain ⟨i, hi, j, hj, hij⟩ := hp
  split_ifs at hij with hc
  · cases hij
    refine ⟨?_, hc.1, ?_, hc.2⟩
    · have h1 : (0:ℚ) ≤ (i : ℚ) + 1/2 := by positivity
      exact mul_nonneg h1 hs.le
    · have h2 : (0:ℚ) ≤ (j : ℚ) + 1/2 := by positivity
      exact mul_nonneg h2 hs.le

/-- Witness for C5 at roomLength = roomWidth = 1, spacing = 1 and the
returned position (1/2, 1/2). -/
theorem generate_detector_grid_in_bounds_witness :
    0 ≤ ((1:ℚ)/2) ∧ ((1:ℚ)/2) ≤ 1 ∧ 0 ≤ ((1:ℚ)/2) ∧ ((1:ℚ)/2) ≤ 1 := by
  have heval : generate_detector_grid 1 1 1 = .ok [(1/2, 1/2)] := by
    have h1 : Int.toNat ⌈(1:ℚ)/1⌉ = 1 := by
      rw [show ⌈(1:ℚ)/1⌉ = 1 by norm_num]
      rfl
    simp only [generate_detector_grid, grid_positions, one_ne_zero, if_false]
    rw [h1]
    simp only [List.range_succ, List.range_zero, List.nil_append,
      List.flatMap_cons, List.flatMap_nil, List.filterMap_cons,
      List.filterMap_nil, List.append_nil, Nat.cast_zero]
    norm_num
  have := generate_detector_grid_in_bounds 1 1 1
    (by norm_num) (by norm_num) (by norm_num) [(1/2, 1/2)] heval
    (1/2, 1/2) (by simp)
  simpa using this

/-- C9: for positive inputs the grid is non-empty exactly when the
spacing is at most twice each room dimension (then and only then does
the first cell center fit in the room); in particular the grid can be
empty for valid inputs. -/
theorem generate_detector_grid_nonempty_iff
    (room_length room_width spacing : ℚ)
    (hl : 0 < room_length) (hw : 0 < room_width) (hs : 0 < spacing) :
    generate_detector_grid room_length room_width spacing =
      .ok (grid_positions room_length room_width spacing) ∧
    (grid_positions room_length room_width spacing ≠ [] ↔
      (spacing ≤ 2 * room_length ∧ spacing ≤ 2 * room_width)) := by
  refine ⟨by simp [generate_detector_grid, hs.ne'], ?_, ?_⟩
  · intro hne
    obtain ⟨p, hp⟩ := List.exists_mem_of_ne_nil _ hne
    simp only [grid_positions, List.mem_flatMap, List.mem_filterMap,
      List.mem_range] at hp
    obtain ⟨i, hi, j, hj, hij⟩ := hp
    split_ifs at hij with hc
    have hx : spacing / 2 ≤ ((i : ℚ) + 1/2) * spacing := by
      have h1 : (0:ℚ) ≤ (i : ℚ) := Nat.cast_nonneg i
      nlinarith
    have hy : spacing / 2 ≤ ((j : ℚ) + 1/2) * spacing := by
      have h1 : (0:ℚ) ≤ (j : ℚ) := Nat.cast_nonneg j
      nlinarith
    constructor
    · have := hc.1
      linarith
    · have := hc.2
      linarith
  · rintro ⟨hx, hy⟩ hemp
    have hmem : (((0:ℕ) : ℚ) + 1/2) * spacing ≤ room_length := by
      push_cast
      linarith
    have hmem2 : (((0:ℕ) : ℚ) + 1/2) * spacing ≤ room_width := by
      push_cast
      linarith
    have hxc : 0 < (⌈room_length / spacing⌉ : ℤ) :=
      Int.ceil_pos.mpr (div_pos hl hs)
    have hyc : 0 < (⌈room_width / spacing⌉ : ℤ) :=
      Int.ceil_pos.mpr (div_pos hw hs)
    have : ((((0:ℕ) : ℚ) + 1/2) * spacing, (((0:ℕ) : ℚ) + 1/2) * spacing) ∈
        grid_positions room_length room_width spacing := by
      simp only [grid_positions, List.mem_flatMap, List.mem_filterMap,
        List.mem_range]
      refine ⟨0, by omega, 0, by omega, ?_⟩
      rw [if_pos ⟨hmem, hmem2⟩]
    rw [hemp] at this
    exact absurd this (List.not_mem_nil _)

/-- Witness for C9 at roomLength = roomWidth = 10, spacing = 5. -/
theorem generate_detector_grid_nonempty_iff_witness :
    generate_detector_grid 10 10 5 = .ok (grid_positions 10 10 5) ∧
    (grid_positions 10 10 5 ≠ [] ↔
      ((5:ℚ) ≤ 2 * 10 ∧ (5:ℚ) ≤ 2 * 10)) :=
  generate_detector_grid_nonempty_iff 10 10 5
    (by norm_num) (by norm_num) (by norm_num)

/-- C6: at roomLength = roomWidth = 10, spacing = 9.1 the candidate
centers are (4.55, 4.55), (4.55, 13.65), (13.65, 4.55), (13.65, 13.65);
the grid keeps exactly the one inside the room while the quantity rule
reports 2, so the two counts differ on this input. -/
theorem scenario3_behavior :
    grid_candidates 10 10 (91/10) =
      [(91/20, 91/20), (91/20, 273/20), (273/20, 91/20), (273/20, 273/20)] ∧
    generate_detector_grid 10 10 (91/10) = .ok [(91/20, 91/20)] ∧
    calculate_detector_quantity 10 10 (91/10) = .ok 2 ∧
    ((grid_positions 10 10 (91/10)).length : ℤ) ≠
      detector_quantity 10 10 (91/10) := by
  have h2 : Int.toNat ⌈(10:ℚ)/(91/10)⌉ = 2 := by
    rw [show ⌈(10:ℚ)/(91/10)⌉ = 2 by norm_num [Int.ceil_eq_iff]]
    rfl
  have hgrid : grid_positions 10 10 (91/10) = [(91/20, 91/20)] := by
    simp only [grid_positions]
    rw [h2]
    simp only [List.range_succ, List.range_zero, List.nil_append,
      List.cons_append, List.flatMap_cons, List.flatMap_nil,
      List.filterMap_cons, List.filterMap_nil, List.append_nil,
      Nat.cast_zero, Nat.cast_one]
    norm_num
  have hq : detector_quantity 10 10 (91/10) = 2 := by
    simp only [detector_quantity]
    norm_num [Int.ceil_eq_iff]
  refine ⟨?_, ?_, ?_, ?_⟩
  · simp only [grid_candidates]
    rw [h2]
    simp only [List.range_succ, List.range_zero, List.nil_append,
      List.cons_append, List.flatMap_cons, List.flatMap_nil, List.map_cons,
      List.map_nil, List.append_nil, Nat.cast_zero, Nat.cast_one]
    norm_num
  · rw [show generate_detector_grid 10 10 (91/10) =
        .ok (grid_positions 10 10 (91/10)) by
      simp [generate_detector_grid]]
    rw [hgrid]
  · rw [show calculate_detector_quantity 10 10 (91/10) =
        .ok (detector_quantity 10 10 (91/10)) by
      simp [calculate_detector_quantity]]
    rw [hq]
  · rw [hgrid, hq]
    norm_num

/-- C2: the engine performs no precondition validation.  Evaluations at
non-positive room dimensions and non-positive spacings: both operations
return ordinary results (never an InvalidGeometry or InvalidSpacing
failure, which do not exist in the code), and a zero spacing raises an
untyped division-by-zero error instead of InvalidSpacing. -/
theorem no_validation_behavior :
    calculate_detector_quantity (-1) 10 (91/10) = .ok 0 ∧
    generate_detector_grid (-1) 10 (91/10) = .ok [] ∧
    calculate_detector_quantity 10 10 (-1) = .ok 100 ∧
    generate_detector_grid 10 10 (-1) = .ok [] ∧
    calculate_detector_quantity 10 10 0 = .error .zeroDivisionError ∧
    generate_detector_grid 10 10 0 = .error .zeroDivisionError := by
  have hx1 : Int.toNat ⌈(-1:ℚ)/(91/10)⌉ = 0 := by
    rw [show ⌈(-1:ℚ)/(91/10)⌉ = 0 by norm_num [Int.ceil_eq_iff]]
    rfl
  have hx2 : Int.toNat ⌈(10:ℚ)/(-1)⌉ = 0 := by
    rw [show ⌈(10:ℚ)/(-1)⌉ = -10 by norm_num [Int.ceil_eq_iff]]
    rfl
  refine ⟨?_, ?_, ?_, ?_, ?_, ?_⟩
  · rw [show calculate_detector_quantity (-1) 10 (91/10) =
        .ok (detector_quantity (-1) 10 (91/10)) by
      simp [calculate_detector_quantity]]
    rw [show detector_quantity (-1) 10 (91/10) = 0 by
      simp only [detector_quantity]
      norm_num [Int.ceil_eq_iff]]
  · rw [show generate_detector_grid (-1) 10 (91/10) =
        .ok (grid_positions (-1) 10 (91/10)) by
      simp [generate_detector_grid]]
    rw [show grid_positions (-1) 10 (91/10) = [] by
      simp only [grid_positions]
      rw [hx1]
      simp]
  · rw [show calculate_detector_quantity 10 10 (-1) =
        .ok (detector_quantity 10 10 (-1)) by
      simp [calculate_detector_quantity]]
    rw [show detector_quantity 10 10 (-1) = 100 by
      simp only [detector_quantity]
      norm_num]
  · rw [show generate_detector_grid 10 10 (-1) =
        .ok (grid_positions 10 10 (-1)) by
      simp [generate_detector_grid]]
    rw [show grid_positions 10 10 (-1) = [] by
      simp only [grid_positions]
      rw [hx2]
      simp]
  · simp [calculate_detector_quantity]
  · simp [generate_detector_grid]

lemma take_length_map_append {α β : Type} (f : α → β) (l1 l2 : List α) :
    (l1.map f ++ l2.map f).take l1.length = l1.map f := by
  have h := List.take_left (l1.map f) (l2.map f)
  rwa [List.length_map] at h

lemma drop_length_map_append {α β : Type} (f : α → β) (l1 l2 : List α) :
    (l1.map f ++ l2.map f).drop l1.length = l2.map f := by
  have h := List.drop_left (l1.map f) (l2.map f)
  rwa [List.length_map] at h

/-- A non-truthy entry anywhere in the ledger is carried through
`generate_outputs` verbatim, in place, and contributes nothing to the
combined position sequence. -/
lemma generate_outputs_skip (length width : ℚ) (pre post : List Entry)
    (e : Entry) (h : entryTruthy e = false) :
    generate_outputs length width (pre ++ e :: post) =
      (generate_outputs length width (pre ++ post)).map fun r =>
        (r.1.take pre.length ++ e :: r.1.drop pre.length, r.2) := by
  rw [generate_outputs_eq_ok, generate_outputs_eq_ok]
  have h1 : apply_quantities length width (pre ++ e :: post) =
      (apply_quantities length width (pre ++ post)).take pre.length ++
        e :: (apply_quantities length width (pre ++ post)).drop pre.length := by
    simp only [apply_quantities, List.map_append, List.map_cons, h,
      Bool.false_eq_true, if_false, take_length_map_append,
      drop_length_map_append]
  have h2 : combined_positions length width (pre ++ e :: post) =
      combined_positions length width (pre ++ post) := by
    simp only [combined_positions, List.filter_append, List.filter_cons, h,
      Bool.false_eq_true, if_false]
  rw [h1, h2]
  rfl

lemma entryTruthy_of_update (e : Entry) (q : ℤ) :
    entryTruthy { e with quantity := q } = entryTruthy e := rfl

lemma entrySpacing_of_update (e : Entry) (q : ℤ) :
    entrySpacing { e with quantity := q } = entrySpacing e := rfl

/-- Overwriting the quantities a second time with the same room
dimensions changes nothing: the computed value only depends on the
spacing, which the first pass leaves alone. -/
lemma apply_quantities_idem (length width : ℚ) (items : List Entry) :
    apply_quantities length width (apply_quantities length width items) =
      apply_quantities length width items := by
  induction items with
  | nil => rfl
  | cons e rest ih =>
      by_cases h : entryTruthy e = true
      · simp [apply_quantities, h, entryTruthy_of_update,
          entrySpacing_of_update] at ih ⊢
        exact ih
      · have hb : entryTruthy e = false := by
          cases hh : entryTruthy e
          · rfl
          · exact absurd hh h
        simp [apply_quantities, hb] at ih ⊢
        exact ih

/-- The combined position sequence is unchanged by a quantity pass:
it only depends on the spacings. -/
lemma combined_positions_apply (length width : ℚ) (items : List Entry) :
    combined_positions length width (apply_quantities length width items) =
      combined_positions length width items := by
  induction items with
  | nil => rfl
  | cons e rest ih =>
      by_cases h : entryTruthy e = true
      · simp [apply_quantities, combined_positions, List.filter_cons, h,
          entryTruthy_of_update, entrySpacing_of_update] at ih ⊢
        exact ih
      · have hb : entryTruthy e = false := by
          cases hh : entryTruthy e
          · rfl
          · exact absurd hh h
        simp [apply_quantities, combined_positions, List.filter_cons, hb]
          at ih ⊢
        exact ih

/-- C8: running `generate_outputs` on its own output ledger with the
same room dimensions reproduces exactly the same entry quantities and
the same position sequence: the second application changes nothing. -/
theorem generate_outputs_idempotent (length width : ℚ)
    (items ledger : List Entry) (positions : List (ℚ × ℚ))
    (h : generate_outputs length width items = .ok (ledger, positions)) :
    generate_outputs length width ledger = .ok (ledger, positions) := by
  rw [generate_outputs_eq_ok] at h
  have h1 : apply_quantities length width items = ledger ∧
      combined_positions length width items = positions := by
    simpa using h
  obtain ⟨hl, hp⟩ := h1
  subst hl
  subst hp
  rw [generate_outputs_eq_ok, apply_quantities_idem, combined_positions_apply]

/-- C7: an entry whose captured spacing is absent is carried through
`generate_outputs` verbatim (its quantity field is not modified) and
contributes no positions: the run with the entry returns the run
without it, with the untouched entry re-inserted at its place. -/
theorem entry_without_spacing_untouched (length width : ℚ)
    (pre post : List Entry) (e : Entry) (h : e.spacing = none) :
    generate_outputs length width (pre ++ e :: post) =
      (generate_outputs length width (pre ++ post)).map fun r =>
        (r.1.take pre.length ++ e :: r.1.drop pre.length, r.2) := by
  have ht : entryTruthy e = false := by
    unfold entryTruthy
    rw [h]
  exact generate_outputs_skip length width pre post e ht

/-- Witness for C7: a Sounder (no rated spacing) freshly added with
default quantity 1, alone in the ledger, room 10 × 10. -/
theorem entry_without_spacing_untouched_witness :
    generate_outputs 10 10
        ([] ++ add_item { name := "Sounder", nfpa := "NFPA 72" } :: []) =
      (generate_outputs 10 10 ([] ++ [])).map fun r =>
        (r.1.take (List.length ([] : List Entry)) ++
          add_item { name := "Sounder", nfpa := "NFPA 72" } ::
            r.1.drop (List.length ([] : List Entry)), r.2) :=
  entry_without_spacing_untouched 10 10 [] []
    (add_item { name := "Sounder", nfpa := "NFPA 72" }) rfl

/-- C10: an entry whose captured spacing equals 0 is treated exactly
like one with no spacing: excluded from quantity and position
computation, left verbatim in place, and the whole run still succeeds
(no error of any kind is signaled for it). -/
theorem zero_spacing_treated_as_none (length width : ℚ)
    (pre post : List Entry) (e : Entry) (h : e.spacing = some 0) :
    generate_outputs length width (pre ++ e :: post) =
      (generate_outputs length width (pre ++ post)).map (fun r =>
        (r.1.take pre.length ++ e :: r.1.drop pre.length, r.2)) ∧
    generate_outputs length width (pre ++ e :: post) =
      .ok (apply_quantities length width (pre ++ e :: post),
           combined_positions length width (pre ++ e :: post)) := by
  have ht : entryTruthy e = false := by
    unfold entryTruthy
    rw [h]
    simp
  exact ⟨generate_outputs_skip length width pre post e ht,
    generate_outputs_eq_ok length width (pre ++ e :: post)⟩

/-- Witness for C10: a device with spacing 0, quantity 3, alone in the
ledger, room 10 × 10. -/
theorem zero_spacing_treated_as_none_witness :
    generate_outputs 10 10
        ([] ++ ({ name := "z", quantity := 3, nfpa := "n",
                  spacing := some 0 } : Entry) :: []) =
      (generate_outputs 10 10 ([] ++ [])).map (fun r =>
        (r.1.take (List.length ([] : List Entry)) ++
          ({ name := "z", quantity := 3, nfpa := "n",
             spacing := some 0 } : Entry) ::
            r.1.drop (List.length ([] : List Entry)), r.2)) ∧
    generate_outputs 10 10
        ([] ++ ({ name := "z", quantity := 3, nfpa := "n",
                  spacing := some 0 } : Entry) :: []) =
      .ok (apply_quantities 10 10
             ([] ++ ({ name := "z", quantity := 3, nfpa := "n",
                       spacing := some 0 } : Entry) :: []),
           combined_positions 10 10
             ([] ++ ({ name := "z", quantity := 3, nfpa := "n",
                       spacing := some 0 } : Entry) :: [])) :=
  zero_spacing_treated_as_none 10 10 [] []
    { name := "z", quantity := 3, nfpa := "n", spacing := some 0 } rfl

/-- C3: invoked with roomWidth = -1 on a one-detector ledger,
`generate_outputs` does NOT fail: it returns success and overwrites the
entry's quantity with 0 (the ceiling of a negative area ratio), an
entry different from the original — the ledger is mutated, not left
unchanged. -/
theorem generate_outputs_negative_width_behavior :
    generate_outputs 10 (-1)
        [{ name := "Point Smoke Detector", quantity := 1, nfpa := "NFPA 72",
           spacing := some (91/10) }] =
      .ok ([{ name := "Point Smoke Detector", quantity := 0,
              nfpa := "NFPA 72", spacing := some (91/10) }], []) ∧
    ({ name := "Point Smoke Detector", quantity := 0, nfpa := "NFPA 72",
       spacing := some (91/10) } : Entry) ≠
      { name := "Point Smoke Detector", quantity := 1, nfpa := "NFPA 72",
        spacing := some (91/10) } := by
  have hq : detector_quantity 10 (-1) (91/10) = 0 := by
    simp only [detector_quantity]
    norm_num [Int.ceil_eq_iff]
  have hgrid : grid_positions 10 (-1) (91/10) = [] := by
    have h0 : Int.toNat ⌈(-1:ℚ)/(91/10)⌉ = 0 := by
      rw [show ⌈(-1:ℚ)/(91/10)⌉ = 0 by norm_num [Int.ceil_eq_iff]]
      rfl
    have h2 : Int.toNat ⌈(10:ℚ)/(91/10)⌉ = 2 := by
      rw [show ⌈(10:ℚ)/(91/10)⌉ = 2 by norm_num [Int.ceil_eq_iff]]
      rfl
    simp only [grid_positions]
    rw [h0, h2]
    simp [List.range_succ]
  constructor
  · rw [generate_outputs_eq_ok]
    norm_num [apply_quantities, combined_positions, entryTruthy,
      entrySpacing, hq, hgrid]
  · intro hEq
    have := congrArg Entry.quantity hEq
    norm_num at this

/-- Witness for C8: a one-detector ledger (spacing 1, stale quantity 5)
in a 1 × 1 room; the theorem is applied to the computed first run. -/
theorem generate_outputs_idempotent_witness :
    generate_outputs 1 1
        [{ name := "d", quantity := 1, nfpa := "n", spacing := some 1 }] =
      .ok ([{ name := "d", quantity := 1, nfpa := "n", spacing := some 1 }],
           [(1/2, 1/2)]) := by
  have hgrid : grid_positions 1 1 1 = [(1/2, 1/2)] := by
    have h1 : Int.toNat ⌈(1:ℚ)/1⌉ = 1 := by
      rw [show ⌈(1:ℚ)/1⌉ = 1 by norm_num]
      rfl
    simp only [grid_positions]
    rw [h1]
    simp only [List.range_succ, List.range_zero, List.nil_append,
      List.flatMap_cons, List.flatMap_nil, List.filterMap_cons,
      List.filterMap_nil, List.append_nil, Nat.cast_zero]
    norm_num
  have hq : detector_quantity 1 1 1 = 1 := by
    simp only [detector_quantity]
    norm_num [Int.ceil_eq_iff]
  have h : generate_outputs 1 1
      [{ name := "d", quantity := 5, nfpa := "n", spacing := some 1 }] =
    .ok ([{ name := "d", quantity := 1, nfpa := "n", spacing := some 1 }],
         [(1/2, 1/2)]) := by
    rw [generate_outputs_eq_ok]
    norm_num [apply_quantities, combined_positions, entryTruthy,
      entrySpacing, hq, hgrid]
  exact generate_outputs_idempotent 1 1 _ _ _ h
